import Mathlib

/-!
Formalization of the dulwich smart-protocol git client (`dulwich/client.py`):
capability negotiation, the receive-pack (push) and upload-pack (fetch)
conversation drivers, the report-status parser, and URL dispatch.

Wire-level collaborators that live outside `client.py` (the pkt-line framer
of `dulwich.protocol` and Python's `urlparse`) are modelled from the
specification, as indicated in their doc comments.  Machine behaviour of
Python (`str.strip`, `str.split(sep, 1)`, `list.remove`, truthiness, raised
`IndexError` / `AttributeError` / `AssertionError`) is embedded explicitly.
-/

namespace Dulwich

/-- Python ASCII whitespace, the characters removed by `str.strip()`. -/
def pyIsSpace (c : Char) : Bool :=
  c = ' ' || c = '\t' || c = '\n' || c = '\r' || c = '\x0b' || c = '\x0c'

/-- Python `s.strip()`: remove leading and trailing whitespace. -/
def pystrip (s : String) : String :=
  String.mk (((s.data.dropWhile pyIsSpace).reverse.dropWhile pyIsSpace).reverse)

/-- Python `s.startswith(pre)`. -/
def pystartswith (s pre : String) : Bool := pre.data.isPrefixOf s.data

/-- Split a character list at the first occurrence of `c`; `none` when `c` is absent. -/
def splitCharAux (c : Char) : List Char → Option (List Char × List Char)
  | [] => none
  | d :: ds =>
    if d = c then some ([], ds)
    else
      match splitCharAux c ds with
      | none => none
      | some (a, b) => some (d :: a, b)

/-- Python `s.split(c, 1)` when `c` occurs in `s` (otherwise `none`): the text
before the first occurrence of `c`, and everything after it. -/
def splitFirst (s : String) (c : Char) : Option (String × String) :=
  (splitCharAux c s.data).map (fun p => (String.mk p.1, String.mk p.2))

/-- Python `c in s` for a single character. -/
def hasChar (s : String) (c : Char) : Bool := s.data.contains c

/-- Python `s.rstrip('\n')`: remove all trailing newline characters. -/
def rstripNL (s : String) : String :=
  String.mk ((s.data.reverse.dropWhile (fun c => c = '\n')).reverse)

/-- Split a character list at every occurrence of `c` (Python `s.split(c)`
with an explicit separator: empty fields are kept). -/
def splitAll (c : Char) : List Char → List (List Char)
  | [] => [[]]
  | d :: ds =>
    if d = c then [] :: splitAll c ds
    else
      match splitAll c ds with
      | [] => [[d]]
      | a :: rest => (d :: a) :: rest

/-- Python `s.split(' ')`. -/
def pysplitSpace (s : String) : List String := (splitAll ' ' s.data).map String.mk

/-- Python `s.split(c)` for a one-character separator. -/
def pysplitChar (s : String) (c : Char) : List String := (splitAll c s.data).map String.mk

/-- `' '.join(caps)`, the capability list as sent on the wire. -/
def renderCaps (caps : List String) : String := String.intercalate " " caps

/-- The all-zero object id (`ZERO_SHA` in `dulwich.protocol`), denoting absence. -/
def ZERO_SHA : String := "0000000000000000000000000000000000000000"

/-- `COMMON_CAPABILITIES` from `client.py`. -/
def COMMON_CAPABILITIES : List String := ["ofs-delta", "side-band-64k"]

/-- `FETCH_CAPABILITIES = ['multi_ack'] + COMMON_CAPABILITIES`. -/
def FETCH_CAPABILITIES : List String := ["multi_ack"] ++ COMMON_CAPABILITIES

/-- `SEND_CAPABILITIES = ['report-status'] + COMMON_CAPABILITIES`. -/
def SEND_CAPABILITIES : List String := ["report-status"] ++ COMMON_CAPABILITIES

/-- The errors (Python exceptions) the embedded client code can raise. -/
inductive PyErr where
  /-- Python `IndexError`, e.g. `parts[2]` on a two-element list. -/
  | indexError
  /-- Python `AssertionError` from a failed `assert` or explicit raise. -/
  | assertionError (msg : String)
  /-- Python `AttributeError`, e.g. calling a method on `None` or a missing attribute. -/
  | attributeError (msg : String)
  /-- `dulwich.errors.GitProtocolError` (also covers framing hangups). -/
  | gitProtocolError (msg : String)
  /-- `dulwich.errors.SendPackError`. -/
  | sendPackError (msg : String)
  /-- `dulwich.errors.UpdateRefsError`: the refs that failed and the full per-ref status map. -/
  | updateRefsError (failed : List String) (refStatus : List (String × String))
  /-- a plain Python `Exception('Unexpected response ...')` on the fetch path. -/
  | unexpectedResponse (data : String)
  /-- a read was attempted where the model has no scheduled data. -/
  | blocked
  deriving DecidableEq, Repr

/-! ## Report-status parser (`ReportStatusParser`) -/

/-- State of `ReportStatusParser`. -/
structure RSP where
  done : Bool
  pack_status : Option String
  ref_status_ok : Bool
  ref_statuses : List String
  deriving DecidableEq, Repr

/-- `ReportStatusParser.__init__`. -/
def initRSP : RSP := ⟨false, none, true, []⟩

/-- `ReportStatusParser.handle_packet`: `none` is the flush packet. -/
def handle_packet (p : RSP) (pkt : Option String) : Except PyErr RSP :=
  if p.done then .error (.gitProtocolError "received more data after status report")
  else
    match pkt with
    | none => .ok { p with done := true }
    | some s =>
      match p.pack_status with
      | none => .ok { p with pack_status := some (pystrip s) }
      | some _ =>
        let rs := pystrip s
        .ok { p with ref_statuses := p.ref_statuses ++ [rs],
                     ref_status_ok := p.ref_status_ok && pystartswith rs "ok " }

/-- Feed a list of parsed frames (`none` = flush) to a report-status parser,
stopping at the first error. -/
def feedFrames (p : RSP) : List (Option String) → Except PyErr RSP
  | [] => .ok p
  | f :: rest =>
    match handle_packet p f with
    | .error e => .error e
    | .ok q => feedFrames q rest

/-- Feed a complete status report: all payloads, then the terminating flush. -/
def feedReport (pkts : List String) : Except PyErr RSP :=
  (feedFrames initRSP (pkts.map some)).bind (fun q => handle_packet q none)

/-- Python dict assignment `m[k] = v`: replace the value when the key is
present, append otherwise. -/
def updMap (m : List (String × String)) (k v : String) : List (String × String) :=
  if m.any (fun p => p.1 = k) then
    m.map (fun p => if p.1 = k then (k, v) else p)
  else m ++ [(k, v)]

/-- Python `set.add`. -/
def insertIfAbsent (l : List String) (x : String) : List String :=
  if x ∈ l then l else l ++ [x]

/-- One iteration of the loop in `ReportStatusParser.check`: parse a stored
ref-status line into the outcome map and ok-set.  Lines without a space are
skipped. -/
def procRefLine (acc : List (String × String) × List String) (line : String) :
    List (String × String) × List String :=
  match splitFirst line ' ' with
  | none => acc
  | some (st, rest) =>
    if st = "ng" then
      match splitFirst rest ' ' with
      | some (r2, st2) => (updMap acc.1 r2 st2, acc.2)
      | none => (updMap acc.1 rest st, acc.2)
    else (updMap acc.1 rest st, insertIfAbsent acc.2 rest)

/-- The outcome map and ok-set built by `ReportStatusParser.check`. -/
def buildRefStatus (statuses : List String) : List (String × String) × List String :=
  statuses.foldl procRefLine ([], [])

/-- The second half of `ReportStatusParser.check`: raise `UpdateRefsError`
when some stored ref-status line did not start with `"ok "`. -/
def checkRefs (p : RSP) : Except PyErr Unit :=
  if p.ref_status_ok then .ok ()
  else
    let (m, oks) := buildRefStatus p.ref_statuses
    .error (.updateRefsError ((m.map Prod.fst).filter (fun r => !(oks.contains r))) m)

/-- `ReportStatusParser.check`: `SendPackError` when the pack status is present
and differs from `"unpack ok"`, otherwise the ref-status check. -/
def checkRSP (p : RSP) : Except PyErr Unit :=
  match p.pack_status with
  | some s => if s ≠ "unpack ok" then .error (.sendPackError s) else checkRefs p
  | none => checkRefs p

/-! ## Pkt-line framing

`Protocol.read_pkt_line` / `read_pkt_seq` / `PktLineParser` live in
`dulwich.protocol`, which is not part of this repository snapshot; they are
modelled from the specification's framer contract (§4.A): a frame is a
4-hex-digit length prefix `LLLL` (value ≥ 4) followed by `LLLL - 4` payload
bytes, `"0000"` is the flush packet, and a non-hex prefix, a payload shorter
than declared, or end-of-stream mid-frame is a protocol error. -/

/-- Hex digit value of a character, if any. -/
def hexDigit (c : Char) : Option Nat :=
  if '0' ≤ c && c ≤ '9' then some (c.toNat - 48)
  else if 'a' ≤ c && c ≤ 'f' then some (c.toNat - 87)
  else if 'A' ≤ c && c ≤ 'F' then some (c.toNat - 55)
  else none

/-- Modelled from the spec: parse one pkt-line from the head of a byte stream.
Returns `none` for the flush packet, `some payload` otherwise, with the rest of
the stream.  End-of-stream (fewer than 4 bytes of prefix, or a payload shorter
than declared) and non-hex prefixes are protocol errors. -/
def readPktLine : List Char → Except String (Option (List Char) × List Char)
  | a :: b :: c :: d :: rest =>
    match hexDigit a, hexDigit b, hexDigit c, hexDigit d with
    | some ha, some hb, some hc, some hd =>
      let n := ((ha * 16 + hb) * 16 + hc) * 16 + hd
      if n = 0 then .ok (none, rest)
      else if n < 4 then .error "invalid pkt-line length"
      else if rest.length < n - 4 then .error "end-of-stream"
      else .ok (some (rest.take (n - 4)), rest.drop (n - 4))
    | _, _, _, _ => .error "invalid pkt-line length"
  | _ => .error "end-of-stream"

/-- Modelled from the spec: `read_pkt_seq`, the lazy sequence of payloads up to
and including a consumed flush packet.  Fuelled recursion (every frame consumes
at least four bytes). -/
def readPktSeqAux : Nat → List Char → Except String (List String × List Char)
  | 0, _ => .error "end-of-stream"
  | fuel + 1, s =>
    match readPktLine s with
    | .error e => .error e
    | .ok (none, rest) => .ok ([], rest)
    | .ok (some p, rest) =>
      match readPktSeqAux fuel rest with
      | .error e => .error e
      | .ok (ps, r) => .ok (String.mk p :: ps, r)

/-- Modelled from the spec: read a pkt-line sequence from the stream, returning
the payloads and the unconsumed remainder of the stream. -/
def readPktSeq (s : String) : Except String (List String × String) :=
  match readPktSeqAux (s.data.length + 1) s.data with
  | .error e => .error e
  | .ok (ps, r) => .ok (ps, String.mk r)

/-- Modelled from the spec: `PktLineParser`, which re-frames a byte buffer into
pkt-lines and dispatches each one (the flush as `none`).  Incomplete trailing
bytes are left undispatched. -/
def parsePktStreamAux : Nat → List Char → Except String (List (Option String))
  | 0, _ => .error "end-of-stream"
  | fuel + 1, s =>
    if s.length < 4 then .ok []
    else
      match readPktLine s with
      | .error e =>
        -- a declared length larger than the buffer means the parser keeps
        -- waiting for more bytes; other errors are real framing errors
        if e = "end-of-stream" then .ok [] else .error e
      | .ok (none, rest) =>
        match parsePktStreamAux fuel rest with
        | .error e => .error e
        | .ok fs => .ok (none :: fs)
      | .ok (some p, rest) =>
        match parsePktStreamAux fuel rest with
        | .error e => .error e
        | .ok fs => .ok (some (String.mk p) :: fs)

/-- Modelled from the spec: all complete pkt-lines contained in a byte buffer. -/
def parsePktStream (s : List Char) : Except String (List (Option String)) :=
  parsePktStreamAux (s.length + 1) s

/-- Lowercase hex digit character for a value below 16. -/
def hexChar (n : Nat) : Char := "0123456789abcdef".data.getD n '0'

/-- Render a pkt-line frame for a payload (used to build concrete wire inputs). -/
def mkPkt (s : String) : String :=
  let n := s.data.length + 4
  String.mk [hexChar (n / 4096 % 16), hexChar (n / 256 % 16),
             hexChar (n / 16 % 16), hexChar (n % 16)] ++ s

/-! ## The client object and capability negotiation -/

/-- The capability configuration of a `GitClient` instance. -/
structure GitClient where
  fetch_capabilities : List String
  send_capabilities : List String
  deriving DecidableEq, Repr

/-- `GitClient.__init__`: fetch capabilities get `thin-pack` appended when
`thin_packs` is set; send capabilities are `SEND_CAPABILITIES`. -/
def mkGitClient (thin_packs : Bool) : GitClient :=
  { fetch_capabilities := FETCH_CAPABILITIES ++ (if thin_packs then ["thin-pack"] else []),
    send_capabilities := SEND_CAPABILITIES }

/-- Lines 182-184 of `send_pack`: copy the client's send capabilities and drop
`report-status` when the server did not advertise it.  No other capability is
ever intersected with the advertisement. -/
def sendPackNegotiate (c : GitClient) (server_capabilities : List String) : List String :=
  let negotiated := c.send_capabilities
  if "report-status" ∈ server_capabilities then negotiated
  else negotiated.erase "report-status"

/-- Line 263 of `fetch_pack`: the negotiated fetch capabilities are a plain copy
of the client's list; the server's advertisement is not consulted at all. -/
def fetchNegotiate (c : GitClient) : List String := c.fetch_capabilities

/-! ## Push conversation (`send_pack`) -/

/-- Python `dict.get(k, d)` over an association list. -/
def lookupD : List (String × String) → String → String → String
  | [], _, d => d
  | p :: ps, k, d => if p.1 = k then p.2 else lookupD ps k d

/-- The `'%s %s %s'` update line of a push. -/
def updLine (o n r : String) : String := o ++ " " ++ n ++ " " ++ r

/-- The ref-update pkt-lines emitted by the loop in `send_pack` (lines
192-203): one line per refname whose old and new ids differ, the first such
line carrying a NUL byte and the rendered capability list.  `sent` is the
`sent_capabilities` flag. -/
def pushLines (old new : List (String × String)) (caps : List String) :
    List String → Bool → List String
  | [], _ => []
  | r :: rs, sent =>
    let o := lookupD old r ZERO_SHA
    let n := lookupD new r ZERO_SHA
    if o ≠ n then
      (if sent then updLine o n r
       else updLine o n r ++ "\x00" ++ renderCaps caps) :: pushLines old new caps rs true
    else pushLines old new caps rs sent

/-- The `want` list accumulated by the same loop (lines 204-205): every new id
that is neither `ZERO_SHA` nor already present among the non-zero old values. -/
def pushWant (old new : List (String × String)) (hv : List String) :
    List String → List String
  | [] => []
  | r :: rs =>
    let n := lookupD new r ZERO_SHA
    (if n ∉ hv ∧ n ≠ ZERO_SHA then [n] else []) ++ pushWant old new hv rs

/-- The refnames whose old and new ids differ, in iteration order. -/
def chgd (old new : List (String × String)) (names : List String) : List String :=
  names.filter (fun r => decide (lookupD old r ZERO_SHA ≠ lookupD new r ZERO_SHA))

/-- Observable I/O events of a push conversation. -/
inductive SPEvent where
  /-- `proto.write_pkt_line` (`none` is the flush). -/
  | wpkt (s : Option String)
  /-- `write_pack_objects(proto.write_file(), generate_pack_contents(have, want))`. -/
  | wpack (hv want : List String)
  /-- the driver started reading the server's response. -/
  | readResp
  deriving DecidableEq, Repr

/-- `_read_side_band64k_data` as called from `send_pack`: channel 2 is the
progress callback; channel 1 is mapped only when `report-status` was
negotiated; any other channel (or an empty payload, whose `pkt[0]` raises
`IndexError`) is an error.  Returns the concatenated channel-1 and channel-2
bytes. -/
def demuxSB (hasRS : Bool) : List String → Except PyErr (List Char × List Char)
  | [] => .ok ([], [])
  | pkt :: rest =>
    match pkt.data with
    | [] => .error .indexError
    | ch :: payload =>
      if ch = '\x01' then
        if hasRS then
          match demuxSB hasRS rest with
          | .error e => .error e
          | .ok (a, b) => .ok (payload ++ a, b)
        else .error (.assertionError "Invalid sideband channel 1")
      else if ch = '\x02' then
        match demuxSB hasRS rest with
        | .error e => .error e
        | .ok (a, b) => .ok (a, payload ++ b)
      else .error (.assertionError "Invalid sideband channel")

/-- Final trailing-data check of `send_pack` (lines 228-230): any bytes after
the response are a `SendPackError`. -/
def sendTail (rest : String) : Except PyErr Unit :=
  if rest = "" then .ok () else .error (.sendPackError ("Unexpected response " ++ rest))

/-- Lines 211-230 of `send_pack`: read the server's response.  With
`side-band-64k` the response is demultiplexed and channel 1 is re-framed into
the report-status parser; without it, the code's literal-truthy branch
`if 'report-status':` is always taken, so every payload is fed to the parser
even when no parser was created (`None.handle_packet`, an `AttributeError`).
Then `check()` runs when a parser exists, and trailing bytes are an error. -/
def sendPackResponse (neg : List String) (stream : String) : Except PyErr Unit :=
  let hasRS := "report-status" ∈ neg
  if "side-band-64k" ∈ neg then
    match readPktSeq stream with
    | .error e => .error (.gitProtocolError e)
    | .ok (pkts, rest) =>
      match demuxSB hasRS pkts with
      | .error e => .error e
      | .ok (ch1, _) =>
        if hasRS then
          match parsePktStream ch1 with
          | .error e => .error (.gitProtocolError e)
          | .ok frames =>
            match feedFrames initRSP frames with
            | .error e => .error e
            | .ok p =>
              match checkRSP p with
              | .error e => .error e
              | .ok () => sendTail rest
        else sendTail rest
  else
    match readPktSeq stream with
    | .error e => .error (.gitProtocolError e)
    | .ok (pkts, rest) =>
      if hasRS then
        match feedFrames initRSP (pkts.map some) with
        | .error e => .error e
        | .ok p =>
          match checkRSP p with
          | .error e => .error e
          | .ok () => sendTail rest
      else
        match pkts with
        | [] => sendTail rest
        | _ :: _ => .error (.attributeError "NoneType object has no attribute handle_packet")

/-- The trace and result of `send_pack`, given the already-read advertisement
(`old_refs`, `server_caps`), the result of `determine_wants` (`new_refs`), an
iteration order `names` for `set(new_refs.keys() + old_refs.keys())`, and the
remaining transport byte stream. -/
def sendPackRun (c : GitClient) (old_refs new_refs : List (String × String))
    (names : List String) (server_caps : List String) (stream : String) :
    List SPEvent × Except PyErr (List (String × String)) :=
  let neg := sendPackNegotiate c server_caps
  if new_refs = [] then ([SPEvent.wpkt none], .ok [])
  else
    let hv := (old_refs.map Prod.snd).filter (fun x => x ≠ ZERO_SHA)
    let lines := pushLines old_refs new_refs neg names false
    let want := pushWant old_refs new_refs hv names
    let t := lines.map (fun l => SPEvent.wpkt (some l)) ++ [SPEvent.wpkt none]
    if want = [] then (t, .ok new_refs)
    else
      let t := t ++ [SPEvent.wpack hv want, SPEvent.readResp]
      match sendPackResponse neg stream with
      | .error e => (t, .error e)
      | .ok () => (t, .ok new_refs)

deriving instance DecidableEq for Except

/-- Result of a push conversation, including the client state afterwards. -/
structure SPResult where
  trace : List SPEvent
  result : Except PyErr (List (String × String))
  client : GitClient
  deriving DecidableEq, Repr

/-- `GitClient.send_pack`.  The method never assigns to any attribute of
`self`: negotiation operates on `list(self._send_capabilities)`, a copy, so the
client state is returned unchanged. -/
def send_pack (c : GitClient) (old_refs new_refs : List (String × String))
    (names : List String) (server_caps : List String) (stream : String) : SPResult :=
  { trace := (sendPackRun c old_refs new_refs names server_caps stream).1,
    result := (sendPackRun c old_refs new_refs names server_caps stream).2,
    client := c }

/-! ## Fetch conversation (`fetch_pack`) -/

/-- The `want` pkt-lines of a fetch (lines 269-272): capabilities ride on the
first want line only. -/
def wantLines (wants : List String) (neg : List String) : List String :=
  match wants with
  | [] => []
  | w :: ws =>
    ("want " ++ w ++ " " ++ renderCaps neg ++ "\n")
      :: ws.map (fun v => "want " ++ v ++ "\n")

/-- Lines 278-282 of `fetch_pack`: handle one payload read between `have`
sends.  `parts = pkt.rstrip('\n').split(' ')`; when `parts[0] == 'ACK'` the
code reads `parts[1]` (an `IndexError` on a one-word line), acks it, and then
asserts `parts[2] == 'continue'` (`parts[2]` is an `IndexError` on a two-word
line).  Non-`ACK` lines are ignored.  Returns the acked id, if any. -/
def haveLoopHandle (pkt : String) : Except PyErr (Option String) :=
  let parts := pysplitSpace (rstripNL pkt)
  match parts with
  | [] => .error .indexError
  | p0 :: rest =>
    if p0 = "ACK" then
      match rest with
      | [] => .error .indexError
      | p1 :: rest2 =>
        match rest2 with
        | [] => .error .indexError
        | p2 :: _ => if p2 = "continue" then .ok (some p1) else .error (.assertionError "")
    else .ok none

/-- The `have` loop (lines 274-283): one iteration per id the graph walker
yields; when the non-blocking poll reports a pending payload, one pkt-line is
read from the stream and handled.  A flush (`none`) from `read_pkt_line` would
be `None` in Python and crash on `pkt.rstrip`. -/
def haveLoopS (old : Unit) : List String → List Bool → List Char →
    Except PyErr (List String × List Char)
  | [], _, s => .ok ([], s)
  | _h :: hs, crs, s =>
    if crs.headD false then
      match readPktLine s with
      | .error e => .error (.gitProtocolError e)
      | .ok (none, _) => .error (.attributeError "NoneType object has no attribute rstrip")
      | .ok (some p, rest) =>
        match haveLoopHandle (String.mk p) with
        | .error e => .error e
        | .ok a =>
          match haveLoopS old hs crs.tail rest with
          | .error e => .error e
          | .ok (as, r) => .ok (a.toList ++ as, r)
    else
      match haveLoopS old hs crs.tail s with
      | .error e => .error e
      | .ok (as, r) => .ok (as, r)

/-- Lines 285-292 of `fetch_pack`: after `done`, read pkt-lines while they are
truthy; ack `ACK` lines (`parts[1]`, an `IndexError` when absent) and stop at
the first line that is not a three-word `continue` line.  Returns the acked
ids and the unconsumed remainder of the stream. -/
def postDoneAux : Nat → List Char → Except PyErr (List String × List Char)
  | 0, _ => .error .blocked
  | fuel + 1, s =>
    match readPktLine s with
    | .error e => .error (.gitProtocolError e)
    | .ok (none, rest) => .ok ([], rest)
    | .ok (some [], rest) => .ok ([], rest)
    | .ok (some p, rest) =>
      let parts := pysplitSpace (rstripNL (String.mk p))
      match parts with
      | [] => .error .indexError
      | p0 :: prest =>
        let acked : Except PyErr (List String) :=
          if p0 = "ACK" then
            match prest with
            | [] => .error .indexError
            | p1 :: _ => .ok [p1]
          else .ok []
        match acked with
        | .error e => .error e
        | .ok a =>
          if parts.length < 3 then .ok (a, rest)
          else
            if parts.getD 2 "" ≠ "continue" then .ok (a, rest)
            else
              match postDoneAux fuel rest with
              | .error e => .error e
              | .ok (as, r) => .ok (a ++ as, r)

/-- The trailing-ACK loop after `done` (fuelled; each frame consumes at least
four bytes of the stream). -/
def postDone (s : List Char) : Except PyErr (List String × List Char) :=
  postDoneAux (s.length + 1) s

/-- `_read_side_band64k_data` as called from `fetch_pack`: channel 1 is the
pack sink, channel 2 the progress callback; anything else is an error. -/
def fetchDemux : List String → Except PyErr (List Char × List Char)
  | [] => .ok ([], [])
  | pkt :: rest =>
    match pkt.data with
    | [] => .error .indexError
    | ch :: payload =>
      if ch = '\x01' then
        match fetchDemux rest with
        | .error e => .error e
        | .ok (a, b) => .ok (payload ++ a, b)
      else if ch = '\x02' then
        match fetchDemux rest with
        | .error e => .error e
        | .ok (a, b) => .ok (a, payload ++ b)
      else .error (.assertionError "Invalid sideband channel")

/-- Lines 293-301 of `fetch_pack`: with `side-band-64k` negotiated the
response is demultiplexed into the pack sink and trailing bytes are an error;
without it the code evaluates `self.read()` — but `GitClient` defines no
attribute `read`, so this path raises `AttributeError` instead of draining the
transport into the pack sink.  Returns the bytes delivered to `pack_data`. -/
def fetchPackFinal (neg : List String) (stream : String) : Except PyErr String :=
  if "side-band-64k" ∈ neg then
    match readPktSeq stream with
    | .error e => .error (.gitProtocolError e)
    | .ok (pkts, rest) =>
      match fetchDemux pkts with
      | .error e => .error e
      | .ok (ch1, _) =>
        if rest = "" then .ok (String.mk ch1)
        else .error (.unexpectedResponse rest)
  else .error (.attributeError "GitClient object has no attribute read")

/-- Result of a fetch conversation, including the client state afterwards. -/
structure FPResult where
  wantsSent : List String
  result : Except PyErr (List (String × String) × String)
  client : GitClient
  deriving DecidableEq, Repr

/-- The emitted want lines and the result of `fetch_pack`, given the
already-read advertisement `refs`, the result of `determine_wants`, the ids
the graph walker yields, the `can_read` poll outcomes, and the remaining
transport byte stream. -/
def fetchPackRun (c : GitClient) (refs : List (String × String)) (wants : List String)
    (haves : List String) (canRead : List Bool) (stream : String) :
    List String × Except PyErr (List (String × String) × String) :=
  let neg := fetchNegotiate c
  if wants = [] then ([], .ok (refs, ""))
  else
    (wantLines wants neg,
      match haveLoopS () haves canRead stream.data with
      | .error e => .error e
      | .ok (_, s1) =>
        match postDone s1 with
        | .error e => .error e
        | .ok (_, s2) =>
          match fetchPackFinal neg (String.mk s2) with
          | .error e => .error e
          | .ok pack => .ok (refs, pack))

/-- `GitClient.fetch_pack`.  The method never assigns to any attribute of
`self`; the client state is returned unchanged. -/
def fetch_pack (c : GitClient) (refs : List (String × String)) (wants : List String)
    (haves : List String) (canRead : List Bool) (stream : String) : FPResult :=
  { wantsSent := (fetchPackRun c refs wants haves canRead stream).1,
    result := (fetchPackRun c refs wants haves canRead stream).2,
    client := c }

/-! ## URL dispatch (`get_transport_and_path`)

Python's `urlparse` is standard-library code, external to this repository; it
is modelled from its documented splitting rules for the inputs the dispatch
supports, with `git` and `git+ssh` added to `uses_netloc` as `client.py` does
at import time. -/

/-- Characters allowed in a URL scheme. -/
def schemeChar (c : Char) : Bool := c.isAlphanum || c = '+' || c = '-' || c = '.'

/-- Schemes for which `urlparse` splits a `//netloc`; `client.py` appends
`git` and `git+ssh` at import time. -/
def uses_netloc : List String :=
  ["ftp", "http", "gopher", "nntp", "telnet", "imap", "wais", "file", "mms",
   "https", "shttp", "snews", "prospero", "rtsp", "rtspu", "rsync", "svn",
   "svn+ssh", "sftp", "git", "git+ssh"]

/-- The components of a parsed URL that the dispatch consults. -/
structure UrlParts where
  scheme : String
  netloc : String
  path : String
  deriving DecidableEq, Repr

/-- Modelled from the spec: Python `urlparse.urlsplit`.  A leading
`scheme:` is recognized when the candidate is nonempty, made of scheme
characters, and the remainder is not a bare port number; `//netloc` is split
off only for schemes in `uses_netloc`. -/
def pyUrlsplit (url : String) : UrlParts :=
  let d := url.data
  let (scheme, rest) :=
    match splitCharAux ':' d with
    | none => (("" : String), d)
    | some (before, after) =>
      if !before.isEmpty && before.all schemeChar &&
          (after.isEmpty || after.any (fun c => !c.isDigit)) then
        (String.mk (before.map Char.toLower), after)
      else ("", d)
  if uses_netloc.contains scheme then
    match rest with
    | '/' :: '/' :: r =>
      let netloc := r.takeWhile (fun c => c ≠ '/' && c ≠ '?' && c ≠ '#')
      ⟨scheme, String.mk netloc, String.mk (r.drop netloc.length)⟩
    | _ => ⟨scheme, "", String.mk rest⟩
  else ⟨scheme, "", String.mk rest⟩

/-- The part of a netloc after the last `@` (the host, possibly with a port). -/
def netlocHostPart (netloc : String) : String :=
  match splitCharAux '@' netloc.data.reverse with
  | none => netloc
  | some (revHost, _) => String.mk revHost.reverse

/-- Python `parsed.username`: the userinfo before the last `@`, up to a `:`. -/
def urlUsername (netloc : String) : Option String :=
  match splitCharAux '@' netloc.data.reverse with
  | none => none
  | some (_, revUser) =>
    let u := String.mk revUser.reverse
    match splitFirst u ':' with
    | some (a, _) => some a
    | none => some u

/-- Python `parsed.hostname`: the lowercased host part, `none` when empty. -/
def urlHostname (netloc : String) : Option String :=
  let hp := netlocHostPart netloc
  let h := match splitFirst hp ':' with
           | some (a, _) => a
           | none => hp
  if h = "" then none else some (String.mk (h.data.map Char.toLower))

/-- Parse a decimal port number. -/
def parsePort (s : String) : Option Nat :=
  if !s.isEmpty && s.data.all Char.isDigit then
    some (s.data.foldl (fun n c => n * 10 + (c.toNat - 48)) 0)
  else none

/-- Python `parsed.port`. -/
def urlPort (netloc : String) : Option Nat :=
  match splitFirst (netlocHostPart netloc) ':' with
  | some (_, p) => parsePort p
  | none => none

/-- The transport selected by `get_transport_and_path`, with the constructor
defaults applied (`TCPGitClient` substitutes the default git port when none is
given). -/
inductive GitTransport where
  | tcp (host : Option String) (port : Nat)
  | ssh (host : Option String) (port : Option Nat) (username : Option String)
  | subprocess
  deriving DecidableEq, Repr

/-- `TCP_GIT_PORT` from `dulwich.protocol`. -/
def TCP_GIT_PORT : Nat := 9418

/-- `get_transport_and_path`: map a location string to a transport and the
path to hand to the remote service. -/
def get_transport_and_path (uri : String) : Except String (GitTransport × String) :=
  let p := pyUrlsplit uri
  if p.scheme = "git" then
    .ok (.tcp (urlHostname p.netloc) ((urlPort p.netloc).getD TCP_GIT_PORT), p.path)
  else if p.scheme = "git+ssh" then
    .ok (.ssh (urlHostname p.netloc) (urlPort p.netloc) (urlUsername p.netloc), p.path)
  else if p.scheme ≠ "" ∧ p.netloc = "" then
    .ok (.ssh (some p.scheme) none none, p.path)
  else if p.scheme ≠ "" then
    .error ("Unknown git protocol scheme: " ++ p.scheme)
  else if hasChar p.path '@' && hasChar p.path ':' then
    match pysplitChar p.path ':' with
    | [user_host, pth] =>
      match pysplitChar user_host '@' with
      | [user, host] => .ok (.ssh (some host) none (some user), pth)
      | _ => .error "too many values to unpack"
    | _ => .error "too many values to unpack"
  else .ok (.subprocess, uri)

/-! ## Well-formed status reports

The spec's data model defines a push status report as `"unpack ok"` or
`"unpack <reason>"` followed by, per ref, `"ok <ref>"` or
`"ng <ref> <reason>"`.  `RefLine` is that grammar. -/

/-- One per-ref line of a status report. -/
inductive RefLine where
  | ok (ref : String)
  | ng (ref reason : String)
  deriving DecidableEq, Repr

/-- The wire form of a per-ref line. -/
def renderRefLine : RefLine → String
  | .ok r => "ok " ++ r
  | .ng r reason => "ng " ++ r ++ " " ++ reason

/-- The ref a line reports on. -/
def RefLine.ref : RefLine → String
  | .ok r => r
  | .ng r _ => r

/-- Whether the line reports success. -/
def RefLine.isOk : RefLine → Bool
  | .ok _ => true
  | .ng _ _ => false

/-- The entry `ReportStatusParser.check` records for a line: `"ok"` for
successes, the reason for failures. -/
def entryOf : RefLine → String × String
  | .ok r => (r, "ok")
  | .ng r reason => (r, reason)

/-- The parser state after feeding a complete report: the first payload
(stripped) is the pack status, the remaining payloads (stripped) are the ref
statuses, and the ok flag records whether every ref status started with
`"ok "`. -/
def finalRSP (pkts : List String) : RSP :=
  ⟨true, pkts.head?.map pystrip,
   ((pkts.tail.map pystrip).all (fun t => pystartswith t "ok ")),
   pkts.tail.map pystrip⟩

/-- A side-band-framed receive-pack response whose status report rejects the
deletion of `refs/heads/x`. -/
def c2response : String :=
  mkPkt ("\x01" ++ mkPkt "unpack ok\n" ++ mkPkt "ng refs/heads/x deletion-rejected\n" ++ "0000")
    ++ "0000"

/-- A client whose send capability list omits `side-band-64k`, the only way the
non-side-band push response path can be reached (negotiation never removes
`side-band-64k`). -/
def c3client : GitClient := ⟨FETCH_CAPABILITIES, ["report-status", "ofs-delta"]⟩

/-- A concrete well-formed status report body: one accepted ref and one
rejected ref. -/
def c6lines : List RefLine :=
  [RefLine.ok "refs/heads/a", RefLine.ng "refs/heads/b" "non-fast-forward"]

/-- Concrete refs for exercising the push update stream: one unchanged ref,
one updated ref and one created ref. -/
def c8old : List (String × String) := [("refs/heads/a", "1111"), ("refs/heads/b", "2222")]

/-- The desired state for the same push: `refs/heads/a` unchanged,
`refs/heads/b` moved, `refs/heads/c` created. -/
def c8new : List (String × String) :=
  [("refs/heads/a", "1111"), ("refs/heads/b", "3333"), ("refs/heads/c", "4444")]

/-- An iteration order for `set(new_refs.keys() + old_refs.keys())`. -/
def c8names : List String := ["refs/heads/a", "refs/heads/b", "refs/heads/c"]

/-- A negotiated capability list for the same push. -/
def c8caps : List String := ["report-status", "ofs-delta"]

/-! ## Supporting lemmas -/

theorem mk_data (s : String) : String.mk s.data = s := rfl

theorem map_eq_self {α : Type} {f : α → α} :
    ∀ (L : List α), (∀ s ∈ L, f s = s) → L.map f = L := by
  intro L h
  induction L with
  | nil => rfl
  | cons a l ih =>
    rw [List.map_cons, h a (List.mem_cons_self a l),
        ih (fun s hs => h s (List.mem_cons_of_mem a hs))]

theorem all_congr {α : Type} {p q : α → Bool} :
    ∀ (L : List α), (∀ a ∈ L, p a = q a) → L.all p = L.all q := by
  intro L h
  induction L with
  | nil => rfl
  | cons a l ih =>
    rw [List.all_cons, List.all_cons, h a (List.mem_cons_self a l),
        ih (fun s hs => h s (List.mem_cons_of_mem a hs))]

theorem all_map_comp {α β : Type} (f : α → β) (p : β → Bool) :
    ∀ (L : List α), (L.map f).all p = L.all (fun a => p (f a)) := by
  intro L
  induction L with
  | nil => rfl
  | cons a l ih => rw [List.map_cons, List.all_cons, List.all_cons, ih]

theorem count_nodup {α : Type} [DecidableEq α] :
    ∀ (l : List α), l.Nodup → ∀ a, l.count a = if a ∈ l then 1 else 0 := by
  intro l
  induction l with
  | nil => intro _ a; simp
  | cons b bs ih =>
    intro hl a
    obtain ⟨hb, hbs⟩ := List.nodup_cons.1 hl
    rw [List.count_cons, ih hbs a]
    by_cases hab : a = b
    · subst hab
      simp [hb]
    · simp [List.mem_cons, hab, Ne.symm hab]

theorem feedFrames_some_closed :
    ∀ (pkts : List String) (s0 : String) (flag : Bool) (acc : List String),
    feedFrames ⟨false, some s0, flag, acc⟩ (pkts.map some)
      = .ok ⟨false, some s0,
             flag && (pkts.map pystrip).all (fun t => pystartswith t "ok "),
             acc ++ pkts.map pystrip⟩ := by
  intro pkts
  induction pkts with
  | nil => intro s0 flag acc; simp [feedFrames]
  | cons p ps ih =>
    intro s0 flag acc
    rw [List.map_cons]
    show feedFrames ⟨false, some s0, flag && pystartswith (pystrip p) "ok ",
          acc ++ [pystrip p]⟩ (ps.map some) = _
    rw [ih]
    simp [Bool.and_assoc, List.append_assoc]

theorem feedReport_closed (pkts : List String) : feedReport pkts = .ok (finalRSP pkts) := by
  cases pkts with
  | nil => rfl
  | cons h t =>
    show (feedFrames initRSP (some h :: t.map some)).bind _ = _
    have h1 : feedFrames initRSP (some h :: t.map some)
        = feedFrames ⟨false, some (pystrip h), true, []⟩ (t.map some) := rfl
    rw [h1, feedFrames_some_closed]
    rfl

theorem splitCharAux_append (c : Char) (l₂ : List Char) :
    ∀ (l₁ : List Char), c ∉ l₁ → splitCharAux c (l₁ ++ c :: l₂) = some (l₁, l₂) := by
  intro l₁
  induction l₁ with
  | nil => intro _; simp [splitCharAux]
  | cons d ds ih =>
    intro h
    have hd : ¬ d = c := fun e => h (by rw [e]; exact List.mem_cons_self c ds)
    have hds : c ∉ ds := fun hm => h (List.mem_cons_of_mem d hm)
    show (if d = c then some ([], ds ++ c :: l₂)
          else match splitCharAux c (ds ++ c :: l₂) with
               | none => none
               | some (a, b) => some (d :: a, b)) = some (d :: ds, l₂)
    rw [if_neg hd, ih hds]

theorem splitFirst_mid (r s : String) (h : ' ' ∉ r.data) :
    splitFirst (r ++ " " ++ s) ' ' = some (r, s) := by
  have hd : (r ++ " " ++ s).data = r.data ++ ' ' :: s.data := by
    rw [String.data_append, String.data_append]
    simp
  unfold splitFirst
  rw [hd, splitCharAux_append ' ' s.data r.data h]
  simp [mk_data]

theorem splitFirst_okline (r : String) :
    splitFirst (renderRefLine (RefLine.ok r)) ' ' = some ("ok", r) := rfl

theorem splitFirst_ngline (r reason : String) :
    splitFirst (renderRefLine (RefLine.ng r reason)) ' '
      = some ("ng", r ++ " " ++ reason) := rfl

theorem isPrefixOf_append_self {α : Type} [BEq α] [LawfulBEq α] (a b : List α) :
    a.isPrefixOf (a ++ b) = true := by
  rw [List.isPrefixOf_iff_prefix]
  exact List.prefix_append a b

theorem isPrefixOf_cons_false {α : Type} [BEq α] (a b : α) (as bs : List α)
    (h : (a == b) = false) : (a :: as).isPrefixOf (b :: bs) = false := by
  simp [List.isPrefixOf, h]

theorem startsWith_render (l : RefLine) :
    pystartswith (renderRefLine l) "ok " = l.isOk := by
  cases l with
  | ok r =>
    show pystartswith ("ok " ++ r) "ok " = true
    unfold pystartswith
    rw [String.data_append]
    exact isPrefixOf_append_self _ _
  | ng r reason =>
    show pystartswith ("ng " ++ r ++ " " ++ reason) "ok " = false
    unfold pystartswith
    rw [String.data_append, String.data_append, String.data_append,
        show ("ok " : String).data = ['o', 'k', ' '] from by decide,
        show ("ng " : String).data = ['n', 'g', ' '] from by decide,
        show (" " : String).data = [' '] from by decide]
    simp only [List.cons_append, List.nil_append]
    exact isPrefixOf_cons_false 'o' 'n' _ _ (by decide)

theorem entry_pair (l : RefLine) : (RefLine.ref l, (entryOf l).2) = entryOf l := by
  cases l <;> rfl

theorem entry_fst (l : RefLine) : (entryOf l).1 = RefLine.ref l := by
  cases l <;> rfl

theorem procRefLine_render (l : RefLine) (h : ' ' ∉ (RefLine.ref l).data)
    (m : List (String × String)) (oks : List String) :
    procRefLine (m, oks) (renderRefLine l)
      = (updMap m (RefLine.ref l) (entryOf l).2,
         if l.isOk then insertIfAbsent oks (RefLine.ref l) else oks) := by
  cases l with
  | ok r => rfl
  | ng r reason =>
    show procRefLine (m, oks) (renderRefLine (RefLine.ng r reason)) = (updMap m r reason, oks)
    unfold procRefLine
    rw [splitFirst_ngline]
    simp [splitFirst_mid r reason h]

theorem updMap_fresh (m : List (String × String)) (k v : String)
    (h : k ∉ m.map Prod.fst) : updMap m k v = m ++ [(k, v)] := by
  have ha : m.any (fun p => p.1 = k) = false := by
    rw [List.any_eq_false]
    intro p hp
    simp only [decide_eq_true_eq]
    intro hpk
    exact h (hpk ▸ List.mem_map_of_mem Prod.fst hp)
  simp [updMap, ha]

theorem insertIfAbsent_fresh (l : List String) (x : String) (h : x ∉ l) :
    insertIfAbsent l x = l ++ [x] := by
  simp [insertIfAbsent, h]

theorem buildRefStatus_fold :
    ∀ (lines : List RefLine) (m : List (String × String)) (oks : List String),
    (∀ l ∈ lines, ' ' ∉ (RefLine.ref l).data) →
    ((lines.map RefLine.ref).Nodup) →
    (∀ l ∈ lines, RefLine.ref l ∉ m.map Prod.fst) →
    (∀ l ∈ lines, RefLine.ref l ∉ oks) →
    (lines.map renderRefLine).foldl procRefLine (m, oks)
      = (m ++ lines.map entryOf, oks ++ (lines.filter RefLine.isOk).map RefLine.ref) := by
  intro lines
  induction lines with
  | nil => intro m oks _ _ _ _; simp
  | cons l ls ih =>
    intro m oks hsp hnd hm hok
    rw [List.map_cons] at hnd
    obtain ⟨hrl, hnd2⟩ := List.nodup_cons.1 hnd
    have hl : l ∈ l :: ls := List.mem_cons_self l ls
    have htail : ∀ x ∈ ls, x ∈ l :: ls := fun x hx => List.mem_cons_of_mem l hx
    rw [List.map_cons, List.foldl_cons,
        procRefLine_render l (hsp l hl) m oks,
        updMap_fresh m _ _ (hm l hl)]
    have hm2 : ∀ x ∈ ls,
        RefLine.ref x ∉ (m ++ [(RefLine.ref l, (entryOf l).2)]).map Prod.fst := by
      intro x hx hmem
      rw [List.map_append] at hmem
      rcases List.mem_append.1 hmem with h1 | h1
      · exact hm x (htail x hx) h1
      · have hxl : RefLine.ref x = RefLine.ref l := by simpa using h1
        exact hrl (hxl ▸ List.mem_map_of_mem RefLine.ref hx)
    have hsp2 : ∀ x ∈ ls, ' ' ∉ (RefLine.ref x).data := fun x hx => hsp x (htail x hx)
    cases hko : l.isOk with
    | true =>
      rw [if_pos rfl, insertIfAbsent_fresh oks _ (hok l hl)]
      have hok2 : ∀ x ∈ ls, RefLine.ref x ∉ oks ++ [RefLine.ref l] := by
        intro x hx hmem
        rcases List.mem_append.1 hmem with h1 | h1
        · exact hok x (htail x hx) h1
        · have hxl : RefLine.ref x = RefLine.ref l := by simpa using h1
          exact hrl (hxl ▸ List.mem_map_of_mem RefLine.ref hx)
      rw [ih _ _ hsp2 hnd2 hm2 hok2]
      rw [List.filter_cons, hko, if_pos rfl, List.map_cons, List.map_cons]
      simp [List.append_assoc, entry_pair]
    | false =>
      rw [if_neg Bool.false_ne_true]
      have hok2 : ∀ x ∈ ls, RefLine.ref x ∉ oks := fun x hx => hok x (htail x hx)
      rw [ih _ _ hsp2 hnd2 hm2 hok2]
      rw [List.filter_cons, hko, if_neg Bool.false_ne_true, List.map_cons]
      simp [List.append_assoc, entry_pair]

theorem lines_filter_not_ok (S : List String) :
    ∀ (lines : List RefLine),
    (∀ l ∈ lines, (l.isOk = true → RefLine.ref l ∈ S) ∧ (l.isOk = false → RefLine.ref l ∉ S)) →
    (lines.map RefLine.ref).filter (fun r => !(S.contains r))
      = (lines.filter (fun l => !l.isOk)).map RefLine.ref := by
  intro lines
  induction lines with
  | nil => intro _; rfl
  | cons l ls ih =>
    intro h
    have hl := h l (List.mem_cons_self l ls)
    have ht : ∀ x ∈ ls, (x.isOk = true → RefLine.ref x ∈ S) ∧
        (x.isOk = false → RefLine.ref x ∉ S) :=
      fun x hx => h x (List.mem_cons_of_mem l hx)
    rw [List.map_cons, List.filter_cons, List.filter_cons]
    cases hko : l.isOk with
    | true =>
      have hmem : RefLine.ref l ∈ S := hl.1 hko
      have hc : (!(S.contains (RefLine.ref l))) = false := by
        simp [List.contains, List.elem_iff]
        exact hmem
      rw [hc, if_neg Bool.false_ne_true, Bool.not_true, if_neg Bool.false_ne_true]
      exact ih ht
    | false =>
      have hmem : RefLine.ref l ∉ S := hl.2 hko
      have hc : (!(S.contains (RefLine.ref l))) = true := by
        simp [List.contains, List.elem_iff]
        exact hmem
      rw [hc, if_pos rfl, Bool.not_false, if_pos rfl, List.map_cons, ih ht]


theorem chgd_cons_pos (old new : List (String × String)) (r : String) (rs : List String)
    (h : lookupD old r ZERO_SHA ≠ lookupD new r ZERO_SHA) :
    chgd old new (r :: rs) = r :: chgd old new rs := by
  simp [chgd, List.filter_cons, h]

theorem chgd_cons_neg (old new : List (String × String)) (r : String) (rs : List String)
    (h : ¬ lookupD old r ZERO_SHA ≠ lookupD new r ZERO_SHA) :
    chgd old new (r :: rs) = chgd old new rs := by
  simp [chgd, List.filter_cons, h]

theorem pushLines_sent (old new : List (String × String)) (caps : List String) :
    ∀ (names : List String),
    pushLines old new caps names true
      = (chgd old new names).map
          (fun r => updLine (lookupD old r ZERO_SHA) (lookupD new r ZERO_SHA) r) := by
  intro names
  induction names with
  | nil => rfl
  | cons r rs ih =>
    by_cases h : lookupD old r ZERO_SHA ≠ lookupD new r ZERO_SHA
    · rw [chgd_cons_pos old new r rs h, List.map_cons, ← ih]
      simp [pushLines, h]
    · rw [chgd_cons_neg old new r rs h, ← ih]
      simp [pushLines, h]

theorem pushLines_first (old new : List (String × String)) (caps : List String) :
    ∀ (names : List String),
    pushLines old new caps names false
      = match chgd old new names with
        | [] => []
        | c :: cs =>
          (updLine (lookupD old c ZERO_SHA) (lookupD new c ZERO_SHA) c
              ++ "\x00" ++ renderCaps caps)
            :: cs.map (fun r => updLine (lookupD old r ZERO_SHA) (lookupD new r ZERO_SHA) r) := by
  intro names
  induction names with
  | nil => rfl
  | cons r rs ih =>
    by_cases h : lookupD old r ZERO_SHA ≠ lookupD new r ZERO_SHA
    · rw [chgd_cons_pos old new r rs h]
      have hstep : pushLines old new caps (r :: rs) false
          = (updLine (lookupD old r ZERO_SHA) (lookupD new r ZERO_SHA) r
              ++ "\x00" ++ renderCaps caps) :: pushLines old new caps rs true := by
        simp [pushLines, h]
      rw [hstep, pushLines_sent]
    · rw [chgd_cons_neg old new r rs h]
      have hstep : pushLines old new caps (r :: rs) false
          = pushLines old new caps rs false := by
        simp [pushLines, h]
      rw [hstep]
      exact ih

theorem lookupD_noNul (m : List (String × String)) (k : String)
    (hm : ∀ p ∈ m, '\x00' ∉ p.2.data) : '\x00' ∉ (lookupD m k ZERO_SHA).data := by
  induction m with
  | nil =>
    show '\x00' ∉ ZERO_SHA.data
    decide
  | cons p ps ih =>
    show '\x00' ∉ (if p.1 = k then p.2 else lookupD ps k ZERO_SHA).data
    by_cases h : p.1 = k
    · rw [if_pos h]
      exact hm p (List.mem_cons_self p ps)
    · rw [if_neg h]
      exact ih (fun q hq => hm q (List.mem_cons_of_mem p hq))

/-! ## Claim theorems -/

/-- C1: the claim says every conversation sends exactly the requested
capabilities intersected with the advertised ones, and nothing outside the
advertised set.  The code does not intersect: against a server advertising
only `ofs-delta`, a fetch still renders its full requested list — including
`side-band-64k`, which the server never advertised — into the first want
line, and a push only ever filters `report-status`, likewise sending
`side-band-64k` to a server that advertised only `report-status`. -/
theorem c1_capabilities_not_intersected :
    fetchNegotiate (mkGitClient true)
      = ["multi_ack", "ofs-delta", "side-band-64k", "thin-pack"] ∧
    wantLines ["a1"] (fetchNegotiate (mkGitClient true))
      = ["want a1 multi_ack ofs-delta side-band-64k thin-pack\n"] ∧
    "side-band-64k" ∉ (["ofs-delta"] : List String) ∧
    fetchNegotiate (mkGitClient true)
      ≠ (mkGitClient true).fetch_capabilities.filter (fun x => List.contains ["ofs-delta"] x) ∧
    sendPackNegotiate (mkGitClient true) ["report-status"] = SEND_CAPABILITIES ∧
    "side-band-64k" ∉ (["report-status"] : List String) := by
  decide

/-- C2: the claim says a deletion-only push (empty pack input set) still reads
the server's response, runs the report-status parser and checks trailing
bytes.  The code returns the new refs right after the flush: the trace stops
at the flush with no response read, and the push reports success even though
the unread response rejects the deletion (as feeding it to the response phase
would show). -/
theorem c2_deletion_only_push_returns_early :
    (send_pack (mkGitClient true) [("refs/heads/x", "a1")] [("refs/heads/x", ZERO_SHA)]
        ["refs/heads/x"] ["report-status", "side-band-64k", "ofs-delta"] c2response).result
      = .ok [("refs/heads/x", ZERO_SHA)] ∧
    (send_pack (mkGitClient true) [("refs/heads/x", "a1")] [("refs/heads/x", ZERO_SHA)]
        ["refs/heads/x"] ["report-status", "side-band-64k", "ofs-delta"] c2response).trace
      = [SPEvent.wpkt (some ("a1 " ++ ZERO_SHA
            ++ " refs/heads/x\x00report-status ofs-delta side-band-64k")),
         SPEvent.wpkt none] ∧
    SPEvent.readResp
      ∉ (send_pack (mkGitClient true) [("refs/heads/x", "a1")] [("refs/heads/x", ZERO_SHA)]
          ["refs/heads/x"] ["report-status", "side-band-64k", "ofs-delta"] c2response).trace ∧
    sendPackResponse ["report-status", "ofs-delta", "side-band-64k"] c2response
      = .error (.updateRefsError ["refs/heads/x"] [("refs/heads/x", "deletion-rejected")]) := by
  decide

/-- C3: the claim says a push with neither `side-band-64k` nor `report-status`
negotiated consumes the response and succeeds on clean EOF.  On that path the
code's literal-truthy `if 'report-status':` always enters the status-reading
loop: at clean EOF the pkt-line read fails, and with any payload present the
loop calls `handle_packet` on the `None` parser. -/
theorem c3_push_without_sideband_or_report_status_raises :
    sendPackNegotiate c3client ["ofs-delta"] = ["ofs-delta"] ∧
    "side-band-64k" ∉ sendPackNegotiate c3client ["ofs-delta"] ∧
    "report-status" ∉ sendPackNegotiate c3client ["ofs-delta"] ∧
    (send_pack c3client [] [("refs/heads/x", "a1")] ["refs/heads/x"] ["ofs-delta"] "").result
      = .error (.gitProtocolError "end-of-stream") ∧
    (send_pack c3client [] [("refs/heads/x", "a1")] ["refs/heads/x"] ["ofs-delta"]
        (mkPkt "unpack ok\n" ++ "0000")).result
      = .error (.attributeError "NoneType object has no attribute handle_packet") := by
  decide

/-- C4: the claim says a fetch without `side-band-64k` drains the remaining
transport bytes into the pack sink.  The code instead evaluates
`self.read()` — `GitClient` has no attribute `read` — so the non-side-band
path raises `AttributeError` for every stream instead of delivering it. -/
theorem c4_non_sideband_fetch_attribute_error :
    ∀ stream : String,
      fetchPackFinal ["multi_ack", "ofs-delta", "thin-pack"] stream
        = .error (.attributeError "GitClient object has no attribute read") := by
  intro stream
  rfl

/-- C5: the claim says every payload read between haves is handled without
failure, in particular a two-word `ACK <id>` line.  The mid-loop handler acks
`ACK <id> continue` and ignores `NAK`, but on a plain `ACK <id>` it evaluates
`parts[2]` on a two-element list, an `IndexError`. -/
theorem c5_plain_ack_index_error :
    haveLoopHandle "ACK deadbeef continue\n" = .ok (some "deadbeef") ∧
    haveLoopHandle "NAK\n" = .ok none ∧
    haveLoopHandle "ACK deadbeef\n" = .error .indexError := by
  decide

/-- C7: the claim says a malformed status line (no space) is skipped and its
presence alone does not make the check raise.  The line is indeed absent from
the outcome map, but `handle_packet` clears the ok flag for any line not
starting with `"ok "`, so `check` raises `UpdateRefsError` with an empty
failure list even though the pack status is `"unpack ok"` and the only
well-formed line reports ok. -/
theorem c7_malformed_line_still_raises :
    (feedReport ["unpack ok", "ok refs/heads/x", "badline"]).bind checkRSP
      = .error (.updateRefsError [] [("refs/heads/x", "ok")]) := by
  decide

/-- C9: the URL dispatch maps the five specified location strings to the
specified transports: `git://` to TCP with the explicit port, `git+ssh://` and
`user@host:path` to SSH with user and host, a bare path to the local
subprocess transport with the path unchanged, and an unknown scheme to a
failure. -/
theorem c9_url_dispatch :
    get_transport_and_path "git://host:9418/repo"
      = .ok (.tcp (some "host") 9418, "/repo") ∧
    get_transport_and_path "git+ssh://u@h/r"
      = .ok (.ssh (some "h") none (some "u"), "/r") ∧
    get_transport_and_path "u@h:p"
      = .ok (.ssh (some "h") none (some "u"), "p") ∧
    get_transport_and_path "/local/repo"
      = .ok (.subprocess, "/local/repo") ∧
    get_transport_and_path "ftp://x"
      = .error "Unknown git protocol scheme: ftp" := by
  decide

/-- C10: `send_pack` and `fetch_pack` never assign to the client's capability
lists — negotiation copies them — so after any conversation the client state
is unchanged, a later negotiation on the same client behaves as on a fresh
one, and `report-status` is still requested even right after a conversation
with a server that did not advertise it. -/
theorem c10_capability_lists_unchanged :
    ∀ (tp : Bool) (old new : List (String × String)) (names scaps : List String)
      (stream : String) (refs : List (String × String)) (wants haves : List String)
      (crs : List Bool) (fstream : String) (scaps2 : List String),
      (send_pack (mkGitClient tp) old new names scaps stream).client = mkGitClient tp ∧
      (fetch_pack (mkGitClient tp) refs wants haves crs fstream).client = mkGitClient tp ∧
      sendPackNegotiate ((send_pack (mkGitClient tp) old new names scaps stream).client) scaps2
        = sendPackNegotiate (mkGitClient tp) scaps2 ∧
      fetchNegotiate ((fetch_pack (mkGitClient tp) refs wants haves crs fstream).client)
        = fetchNegotiate (mkGitClient tp) ∧
      "report-status"
        ∈ ((send_pack (mkGitClient tp) old new names [] stream).client).send_capabilities ∧
      sendPackNegotiate ((send_pack (mkGitClient tp) old new names [] stream).client) []
        = ["ofs-delta", "side-band-64k"] := by
  intro tp old new names scaps stream refs wants haves crs fstream scaps2
  refine ⟨rfl, rfl, rfl, rfl, ?_, rfl⟩
  show "report-status" ∈ SEND_CAPABILITIES
  decide

/-- C6: for every completed push status report (per the data model: an
`unpack` line followed by per-ref `ok`/`ng` lines over distinct,
whitespace-free refs), `check` raises `SendPackError(pack_status)` exactly
when the stored pack status is present and differs from `"unpack ok"`;
otherwise, if any ref reported `ng`, it raises `UpdateRefsError` carrying the
full per-ref outcome map, with the failure list containing exactly the refs
that did not succeed (refs with ok outcomes excluded); and if the pack status
is ok and no ref reported `ng`, it raises nothing. -/
theorem c6_report_status_check (pack : String) (lines : List RefLine)
    (hpk : pystrip pack = pack)
    (hst : ∀ l ∈ lines, pystrip (renderRefLine l) = renderRefLine l)
    (hsp : ∀ l ∈ lines, ' ' ∉ (RefLine.ref l).data)
    (hnd : (lines.map RefLine.ref).Nodup) :
    ∃ p, feedReport (pack :: lines.map renderRefLine) = .ok p ∧
      (pack ≠ "unpack ok" → checkRSP p = .error (.sendPackError pack)) ∧
      (pack = "unpack ok" → (∀ l ∈ lines, l.isOk = true) → checkRSP p = .ok ()) ∧
      (pack = "unpack ok" → (∃ l ∈ lines, l.isOk = false) →
        (checkRSP p = .error (.updateRefsError
            ((lines.filter (fun l => !l.isOk)).map RefLine.ref) (lines.map entryOf)) ∧
         (∀ r, r ∈ (lines.filter (fun l => !l.isOk)).map RefLine.ref ↔
            ∃ reason, RefLine.ng r reason ∈ lines))) := by
  have hLs : (lines.map renderRefLine).map pystrip = lines.map renderRefLine := by
    refine map_eq_self _ ?_
    intro s hs
    obtain ⟨l, hl, rfl⟩ := List.mem_map.1 hs
    exact hst l hl
  have hfin : finalRSP (pack :: lines.map renderRefLine)
      = ⟨true, some pack, lines.all RefLine.isOk, lines.map renderRefLine⟩ := by
    simp [finalRSP, hpk, hLs, all_map_comp, startsWith_render]
  refine ⟨finalRSP (pack :: lines.map renderRefLine), feedReport_closed _, ?_, ?_, ?_⟩
  · intro h
    rw [hfin]
    simp [checkRSP, h]
  · intro hp hall
    subst hp
    rw [hfin]
    simp [checkRSP, checkRefs, List.all_eq_true.2 hall]
  · intro hp hex
    subst hp
    rw [hfin]
    have hflag0 : lines.all RefLine.isOk = false := by
      obtain ⟨l, hl, hlo⟩ := hex
      rw [Bool.eq_false_iff]
      intro hall
      have h1 := List.all_eq_true.1 hall l hl
      rw [hlo] at h1
      exact Bool.false_ne_true h1
    have hS : ∀ l ∈ lines,
        (l.isOk = true → RefLine.ref l ∈ (lines.filter RefLine.isOk).map RefLine.ref) ∧
        (l.isOk = false → RefLine.ref l ∉ (lines.filter RefLine.isOk).map RefLine.ref) := by
      intro l hl
      constructor
      · intro hko
        exact List.mem_map_of_mem _ (List.mem_filter.2 ⟨hl, hko⟩)
      · intro hko hmem
        obtain ⟨l2, hl2, he⟩ := List.mem_map.1 hmem
        have hl2f := List.mem_filter.1 hl2
        have hll : l2 = l := List.inj_on_of_nodup_map hnd hl2f.1 hl he
        rw [hll, hko] at hl2f
        exact Bool.false_ne_true hl2f.2
    have hkeys : (lines.map entryOf).map Prod.fst = lines.map RefLine.ref := by
      rw [List.map_map]
      exact List.map_congr_left (fun l _ => entry_fst l)
    have hbuild : buildRefStatus (lines.map renderRefLine)
        = (lines.map entryOf, (lines.filter RefLine.isOk).map RefLine.ref) := by
      have h0 := buildRefStatus_fold lines [] [] hsp hnd
        (fun l _ h => List.not_mem_nil _ h) (fun l _ h => List.not_mem_nil _ h)
      simpa [buildRefStatus] using h0
    have hfail := lines_filter_not_ok ((lines.filter RefLine.isOk).map RefLine.ref) lines hS
    constructor
    · show checkRSP ⟨true, some "unpack ok", lines.all RefLine.isOk, lines.map renderRefLine⟩
        = _
      simp only [checkRSP]
      rw [if_neg (by simp)]
      simp only [checkRefs, hflag0, Bool.false_ne_true, if_neg, hbuild]
      rw [hkeys, hfail, if_neg Bool.false_ne_true]
    · intro r
      constructor
      · intro hr
        obtain ⟨l, hlf, he⟩ := List.mem_map.1 hr
        have hlf2 := List.mem_filter.1 hlf
        cases l with
        | ok r2 =>
          have : (!(RefLine.ok r2).isOk) = true := hlf2.2
          simp [RefLine.isOk] at this
        | ng r2 reason =>
          have he2 : r2 = r := he
          exact ⟨reason, he2 ▸ hlf2.1⟩
      · intro hng
        obtain ⟨reason, hin⟩ := hng
        have hmem : RefLine.ref (RefLine.ng r reason)
            ∈ (lines.filter (fun l => !l.isOk)).map RefLine.ref :=
          List.mem_map_of_mem _ (List.mem_filter.2 ⟨hin, by simp [RefLine.isOk]⟩)
        exact hmem


/-- Witness for C6: the theorem instantiated at the report
`"unpack ok" / ok refs/heads/a / ng refs/heads/b non-fast-forward`, with every
hypothesis discharged by evaluation. -/
theorem c6_report_status_check_witness :
    pystrip "unpack ok" = "unpack ok" ∧
    (∀ l ∈ c6lines, pystrip (renderRefLine l) = renderRefLine l) ∧
    (∀ l ∈ c6lines, ' ' ∉ (RefLine.ref l).data) ∧
    (c6lines.map RefLine.ref).Nodup ∧
    (∃ p, feedReport ("unpack ok" :: c6lines.map renderRefLine) = .ok p ∧
      ("unpack ok" ≠ "unpack ok" → checkRSP p = .error (.sendPackError "unpack ok")) ∧
      ("unpack ok" = "unpack ok" → (∀ l ∈ c6lines, l.isOk = true) → checkRSP p = .ok ()) ∧
      ("unpack ok" = "unpack ok" → (∃ l ∈ c6lines, l.isOk = false) →
        (checkRSP p = .error (.updateRefsError
            ((c6lines.filter (fun l => !l.isOk)).map RefLine.ref) (c6lines.map entryOf)) ∧
         (∀ r, r ∈ (c6lines.filter (fun l => !l.isOk)).map RefLine.ref ↔
            ∃ reason, RefLine.ng r reason ∈ c6lines)))) :=
  ⟨by decide, by decide, by decide, by decide,
   c6_report_status_check "unpack ok" c6lines (by decide) (by decide) (by decide) (by decide)⟩


/-- C8: the update stream a push emits before the flush contains exactly one
line `"<old> <new> <ref>"` for each ref in the union of old and new refs whose
old and new ids differ (ids defaulting to `ZERO_SHA` for creations and
deletions), and the first emitted line — and only the first — carries a NUL
byte followed by the rendered negotiated capability list.  `names` is the
iteration order of `set(new_refs.keys() + old_refs.keys())`; ids and refs are
NUL-free strings. -/
theorem c8_update_stream (old new : List (String × String)) (caps : List String)
    (names : List String)
    (hnd : names.Nodup)
    (hcov1 : ∀ r ∈ names, r ∈ old.map Prod.fst ++ new.map Prod.fst)
    (hcov2 : ∀ r ∈ old.map Prod.fst ++ new.map Prod.fst, r ∈ names)
    (hnul : ∀ p ∈ old ++ new, '\x00' ∉ p.1.data ∧ '\x00' ∉ p.2.data) :
    (chgd old new names = [] → pushLines old new caps names false = []) ∧
    (∀ c cs, chgd old new names = c :: cs →
      pushLines old new caps names false
        = (updLine (lookupD old c ZERO_SHA) (lookupD new c ZERO_SHA) c
              ++ "\x00" ++ renderCaps caps)
          :: cs.map (fun r => updLine (lookupD old r ZERO_SHA) (lookupD new r ZERO_SHA) r)) ∧
    (∀ r : String, (chgd old new names).count r
      = if (r ∈ old.map Prod.fst ++ new.map Prod.fst)
            ∧ lookupD old r ZERO_SHA ≠ lookupD new r ZERO_SHA then 1 else 0) ∧
    (∀ hd tl, pushLines old new caps names false = hd :: tl →
      '\x00' ∈ hd.data ∧ ∀ l ∈ tl, '\x00' ∉ l.data) := by
  have holdval : ∀ p ∈ old, '\x00' ∉ p.2.data :=
    fun p hp => (hnul p (List.mem_append.2 (Or.inl hp))).2
  have hnewval : ∀ p ∈ new, '\x00' ∉ p.2.data :=
    fun p hp => (hnul p (List.mem_append.2 (Or.inr hp))).2
  have hrefnul : ∀ r ∈ names, '\x00' ∉ r.data := by
    intro r hr
    rcases List.mem_append.1 (hcov1 r hr) with h1 | h1
    · obtain ⟨p, hp, rfl⟩ := List.mem_map.1 h1
      exact (hnul p (List.mem_append.2 (Or.inl hp))).1
    · obtain ⟨p, hp, rfl⟩ := List.mem_map.1 h1
      exact (hnul p (List.mem_append.2 (Or.inr hp))).1
  have hupd : ∀ r ∈ names,
      '\x00' ∉ (updLine (lookupD old r ZERO_SHA) (lookupD new r ZERO_SHA) r).data := by
    intro r hr hmem
    have hsp : '\x00' ∉ (" " : String).data := by decide
    rw [updLine, String.data_append, String.data_append, String.data_append,
        String.data_append] at hmem
    rcases List.mem_append.1 hmem with h1 | h1
    · rcases List.mem_append.1 h1 with h2 | h2
      · rcases List.mem_append.1 h2 with h3 | h3
        · rcases List.mem_append.1 h3 with h4 | h4
          · exact lookupD_noNul old r holdval h4
          · exact hsp h4
        · exact lookupD_noNul new r hnewval h3
      · exact hsp h2
    · exact hrefnul r hr h1
  refine ⟨?_, ?_, ?_, ?_⟩
  · intro h
    rw [pushLines_first, h]
  · intro c cs h
    rw [pushLines_first, h]
  · intro r
    have hnodc : (chgd old new names).Nodup := List.Nodup.filter _ hnd
    rw [count_nodup _ hnodc r]
    have hmem : r ∈ chgd old new names ↔
        ((r ∈ old.map Prod.fst ++ new.map Prod.fst)
          ∧ lookupD old r ZERO_SHA ≠ lookupD new r ZERO_SHA) := by
      rw [chgd, List.mem_filter]
      constructor
      · rintro ⟨h1, h2⟩
        exact ⟨hcov1 r h1, of_decide_eq_true h2⟩
      · rintro ⟨h1, h2⟩
        exact ⟨hcov2 r h1, decide_eq_true h2⟩
    by_cases hr : (r ∈ old.map Prod.fst ++ new.map Prod.fst)
        ∧ lookupD old r ZERO_SHA ≠ lookupD new r ZERO_SHA
    · rw [if_pos (hmem.2 hr), if_pos hr]
    · rw [if_neg (fun hm => hr (hmem.1 hm)), if_neg hr]
  · intro hd tl h
    cases hc : chgd old new names with
    | nil =>
      rw [pushLines_first, hc] at h
      exact List.noConfusion h
    | cons c cs =>
      have heq : pushLines old new caps names false
          = (updLine (lookupD old c ZERO_SHA) (lookupD new c ZERO_SHA) c
                ++ "\x00" ++ renderCaps caps)
            :: cs.map (fun r => updLine (lookupD old r ZERO_SHA) (lookupD new r ZERO_SHA) r) := by
        rw [pushLines_first, hc]
      rw [heq] at h
      injection h with h1 h2
      constructor
      · rw [← h1]
        rw [String.data_append]
        refine List.mem_append.2 (Or.inl ?_)
        rw [String.data_append]
        refine List.mem_append.2 (Or.inr ?_)
        decide
      · intro l hl
        rw [← h2] at hl
        obtain ⟨r, hrcs, rfl⟩ := List.mem_map.1 hl
        have hrn : r ∈ names := by
          have : r ∈ chgd old new names := by
            rw [hc]
            exact List.mem_cons_of_mem c hrcs
          exact (List.mem_filter.1 this).1
        exact hupd r hrn

/-- Witness for C8: the theorem instantiated at a push with one unchanged ref,
one updated ref and one created ref, with every hypothesis discharged by
evaluation. -/
theorem c8_update_stream_witness :
    c8names.Nodup ∧
    (∀ r ∈ c8names, r ∈ c8old.map Prod.fst ++ c8new.map Prod.fst) ∧
    (∀ r ∈ c8old.map Prod.fst ++ c8new.map Prod.fst, r ∈ c8names) ∧
    (∀ p ∈ c8old ++ c8new, '\x00' ∉ p.1.data ∧ '\x00' ∉ p.2.data) ∧
    ((chgd c8old c8new c8names = [] → pushLines c8old c8new c8caps c8names false = []) ∧
     (∀ c cs, chgd c8old c8new c8names = c :: cs →
       pushLines c8old c8new c8caps c8names false
         = (updLine (lookupD c8old c ZERO_SHA) (lookupD c8new c ZERO_SHA) c
               ++ "\x00" ++ renderCaps c8caps)
           :: cs.map (fun r =>
                updLine (lookupD c8old r ZERO_SHA) (lookupD c8new r ZERO_SHA) r)) ∧
     (∀ r : String, (chgd c8old c8new c8names).count r
       = if (r ∈ c8old.map Prod.fst ++ c8new.map Prod.fst)
             ∧ lookupD c8old r ZERO_SHA ≠ lookupD c8new r ZERO_SHA then 1 else 0) ∧
     (∀ hd tl, pushLines c8old c8new c8caps c8names false = hd :: tl →
       '\x00' ∈ hd.data ∧ ∀ l ∈ tl, '\x00' ∉ l.data)) :=
  ⟨by decide, by decide, by decide, by decide,
   c8_update_stream c8old c8new c8caps c8names (by decide) (by decide) (by decide) (by decide)⟩


end Dulwich
